import Mathlib

/-!
# Verification of the filter/sort/range query engine

Shallow embedding of `backend/app/utils/queries/queries.py` and the sort
validation in `backend/app/api/_shared/schema/schemas.py`, together with
proofs about the claims of the specification.

Python values reaching the engine are scalars (str / int / bool / None) or
lists of scalars; SQLAlchemy column types are modelled by an enumeration and
type decorators by an optional `impl` field, mirroring
`getattr(column.type, "impl", column.type)`.
-/

namespace QueryEngine

/-- A scalar Python value as it appears in a filter map. -/
inductive Scalar where
  | sNone
  | sStr (s : String)
  | sInt (n : Int)
  | sBool (b : Bool)
deriving DecidableEq, Repr

/-- A Python value in a filter map: a scalar or a list of scalars
(`isinstance(value, list)` distinguishes the two in the source). -/
inductive Value where
  | scalar (v : Scalar)
  | vList (xs : List Scalar)
deriving DecidableEq, Repr

/-- Python `None`. -/
def pyNone : Value := .scalar .sNone

/-- Python `str(value)` for the scalars that can reach string interpolation. -/
def Scalar.pyStr : Scalar → String
  | .sNone => "None"
  | .sStr s => s
  | .sInt n => toString n
  | .sBool true => "True"
  | .sBool false => "False"

/-- The SQLAlchemy column type classes the source dispatches on; anything not
in the comparison tuple falls into the `string` / `text` bucket. -/
inductive ColType where
  | dateTime
  | date
  | time
  | integer
  | smallInteger
  | bigInteger
  | boolean
  | string
  | text
deriving DecidableEq, Repr

/-- A column's `type` attribute: `impl` models a `TypeDecorator`'s `impl`
attribute, read by `getattr(column.type, "impl", column.type)`. -/
structure SaType where
  impl : Option ColType
  base : ColType
deriving DecidableEq, Repr

/-- A SQLAlchemy column: a name and a type. -/
structure Column where
  name : String
  ty : SaType
deriving DecidableEq, Repr

/-- A plain (non-decorated) column. -/
def mkCol (name : String) (ct : ColType) : Column := ⟨name, ⟨none, ct⟩⟩

/-- A model / table: its list of columns.  `hasattr(Model, k)` /
`getattr(Model, k)` become lookups by column name. -/
abbrev Model := List Column

/-- `getattr(Model, k)` when it succeeds, `none` where Python would raise
`AttributeError` (`hasattr` is `Option.isSome` of this). -/
def getCol (M : Model) (k : String) : Option Column :=
  M.find? (fun c => c.name == k)

/-- `getattr(column.type, "impl", column.type)`. -/
def colTypeOf (c : Column) : ColType := c.ty.impl.getD c.ty.base

/-- `isinstance(col_type, (DateTime, Date, Time, Integer, SmallInteger,
BigInteger, Boolean))` — the column kinds that take comparison operators. -/
def isComparisonColType : ColType → Bool
  | .dateTime | .date | .time | .integer | .smallInteger | .bigInteger | .boolean => true
  | .string | .text => false

/-- `isinstance(col_type, (DateTime, Integer, SmallInteger, BigInteger,
Boolean))` — the column kinds skipped by the global `_query` search.
Note `Date` and `Time` are absent from this tuple in the source. -/
def isGlobalSearchSkipped : ColType → Bool
  | .dateTime | .integer | .smallInteger | .bigInteger | .boolean => true
  | .date | .time | .string | .text => false

/-- SQLAlchemy filter expressions as built by the engine.
`ilike` is SQL's case-insensitive `LIKE`; `and_` / `or_` mirror
`sqlalchemy.and_` / `sqlalchemy.or_` applied to argument lists. -/
inductive FilterExpr where
  | gt (col : String) (v : Scalar)
  | gte (col : String) (v : Scalar)
  | lt (col : String) (v : Scalar)
  | lte (col : String) (v : Scalar)
  | eq (col : String) (v : Scalar)
  | ne (col : String) (v : Scalar)
  | inList (col : String) (vs : List Scalar)
  | notInList (col : String) (vs : List Scalar)
  | ilike (col : String) (pattern : String)
  | and_ (es : List FilterExpr)
  | or_ (es : List FilterExpr)
deriving Repr

/-- The single-column body of `_append_filter_column_to`: list values become
`IN` / `NOT IN`, scalars on comparison-typed columns go through the operator
map (with `==` as the default for an unknown operator), anything else becomes
a case-insensitive substring match `%value%`. -/
def filterExprSingle (c : Column) (v : Value) (op : Option String) : FilterExpr :=
  match v with
  | .vList xs =>
    if op == some "nin" then .notInList c.name xs else .inList c.name xs
  | .scalar sv =>
    if isComparisonColType (colTypeOf c) then
      match op with
      | some "gt" => .gt c.name sv
      | some "gte" => .gte c.name sv
      | some "lt" => .lt c.name sv
      | some "lte" => .lte c.name sv
      | some "eq" => .eq c.name sv
      | some "ne" => .ne c.name sv
      | _ => .eq c.name sv
    else
      .ilike c.name ("%" ++ sv.pyStr ++ "%")

/-- The `columns` argument of `_append_filter_column_to`: a single column or a
list of columns. -/
inductive ColumnsArg where
  | single (c : Column)
  | multiple (cs : List Column)

/-- `_append_filter_column_to`: the expressions it appends to its output list.
A multi-column argument produces one `or_` of the per-column expressions; a
one-element list is unwrapped to the single-column path.  The empty-list case
is unreachable from the callers (Python would raise `IndexError` on
`columns[0]`). -/
def append_filter_column_to (cols : ColumnsArg) (v : Value) (op : Option String) :
    List FilterExpr :=
  match cols with
  | .single c => [filterExprSingle c v op]
  | .multiple [] => []
  | .multiple [c] => [filterExprSingle c v op]
  | .multiple cs => [.or_ (cs.map (fun c => filterExprSingle c v op))]

/-- Helper for `pySplit`: walk the characters, cutting at the separator. -/
def pySplitAux (sep : Char) : List Char → List Char → List String
  | [], acc => [String.mk acc.reverse]
  | c :: cs, acc =>
    if c == sep then String.mk acc.reverse :: pySplitAux sep cs []
    else pySplitAux sep cs (c :: acc)

/-- Python's `str.split(sep)` for a one-character separator (the engine only
splits on `":"` and `"|"`): `"a:b".split(":") = ["a","b"]`,
`"ab".split(":") = ["ab"]`, `"".split(":") = [""]`. -/
def pySplit (s : String) (sep : Char) : List String :=
  pySplitAux sep s.toList []

/-- `safe_unpack_filter`: split a raw filter key on `:` into
(field name, operator); three or more segments yield `(None, None)`. -/
def safe_unpack_filter (filtr : String) : Option String × Option String :=
  match pySplit filtr ':' with
  | [p] => (some p, none)
  | [p, q] => (some p, some q)
  | _ => (none, none)

/-- A Python dict of filters, in insertion order. -/
abbrev Dict := List (String × Value)

/-- `filters.get(k)`: the stored value, or `None` when the key is absent. -/
def lookupVal (d : Dict) (k : String) : Value :=
  match d.find? (fun p => p.1 == k) with
  | some p => p.2
  | none => pyNone

/-- `exclude_keys_from_filter`: drop the listed keys. -/
def exclude_keys_from_filter (filters : Dict) (excludeKeys : List String) : Dict :=
  filters.filter (fun p => !(excludeKeys.contains p.1))

/-- The keys `get_filter_expression` always strips first. -/
def excludeFilterKeys : List String := ["is_search_in_docs", "doc_search_text"]

/-- One iteration of the explicit-filter loop in `get_filter_expression`:
the expressions appended for raw key `filtr` (reading the value through the
dict, as `filters.get(filtr)` / `filters[filtr]` do). -/
def explicitFilterFor (M : Model) (fs : Dict) (filtr : String) : List FilterExpr :=
  match safe_unpack_filter filtr with
  | (none, _) => []
  | (some fkey, fop) =>
    if lookupVal fs filtr == pyNone then []
    else
      let columns := (pySplit fkey '|').filterMap (getCol M)
      if columns.isEmpty then []
      else append_filter_column_to (.multiple columns) (lookupVal fs filtr) fop

/-- The `fields_filters` list accumulated by the explicit-filter loop. -/
def fieldsFiltersOf (M : Model) (fs : Dict) : List FilterExpr :=
  fs.flatMap (fun p => explicitFilterFor M fs p.1)

/-- One iteration of the global-search loop: the expressions appended for raw
key `filtr` given the global query value `gq`.  An empty or unparsable field
name and a missing attribute are skipped, as are the five skipped column
kinds. -/
def globalFilterFor (M : Model) (gq : Value) (filtr : String) : List FilterExpr :=
  match safe_unpack_filter filtr with
  | (none, _) => []
  | (some fkey, _) =>
    if fkey == "" then []
    else
      match getCol M fkey with
      | none => []
      | some column =>
        if isGlobalSearchSkipped (colTypeOf column) then []
        else append_filter_column_to (.single column) gq none

/-- The `fields_filters_by_query` list accumulated by the global-search
loop. -/
def queryFiltersOf (M : Model) (fs : Dict) (gq : Value) : List FilterExpr :=
  fs.flatMap (fun p => globalFilterFor M gq p.1)

/-- `get_filter_expression`: strip the excluded keys, pop `_query`, run the
explicit loop and (when the popped value is not `None`) the global-search
loop, and combine the two lists. -/
def get_filter_expression (M : Model) (filters : Dict) : Option FilterExpr :=
  let fs1 := exclude_keys_from_filter filters excludeFilterKeys
  let gq := lookupVal fs1 "_query"
  let fs2 := fs1.filter (fun p => p.1 != "_query")
  let fieldsFilters := fieldsFiltersOf M fs2
  let queryFilters := if gq ≠ pyNone then queryFiltersOf M fs2 gq else []
  match fieldsFilters, queryFilters with
  | [], [] => none
  | _ :: _, _ :: _ => some (.and_ [.and_ fieldsFilters, .or_ queryFilters])
  | _ :: _, [] => some (.and_ fieldsFilters)
  | [], _ :: _ => some (.or_ queryFilters)

/-- The dict the two loops of `get_filter_expression` iterate: the input
with the always-excluded keys and `_query` removed. -/
def filtersPrepared (filters : Dict) : Dict :=
  (exclude_keys_from_filter filters excludeFilterKeys).filter (fun p => p.1 != "_query")

/-- The global search term `get_filter_expression` pops: the value stored
under `_query` after the always-excluded keys are removed, `None` when
absent. -/
def globalQueryOf (filters : Dict) : Value :=
  lookupVal (exclude_keys_from_filter filters excludeFilterKeys) "_query"

/-! ## Sorting, queries, pagination -/

/-- `app.constants.ORDER_ASC`. -/
def ORDER_ASC : String := "ASC"

/-- `app.constants.ORDER_DESC`. -/
def ORDER_DESC : String := "DESC"

/-- A SQLAlchemy ordering expression: a column with `.asc()`, `.desc()`, or
neither applied. -/
inductive OrderExpr where
  | asc (col : String)
  | desc (col : String)
  | bare (col : String)
deriving DecidableEq, Repr

/-- `asc_desc_expression`: apply `.asc()` / `.desc()` according to the order
string, returning the expression unchanged for any other string. -/
def asc_desc_expression (colName : String) (order : String) : OrderExpr :=
  if order == ORDER_ASC then .asc colName
  else if order == ORDER_DESC then .desc colName
  else .bare colName

/-- `get_sort_by_key_and_order_expression`; `none` models the
`AttributeError` Python raises when the key is not a column of the model. -/
def get_sort_by_key_and_order_expression (M : Model) (key : String) (order : String) :
    Option OrderExpr :=
  (getCol M key).map (fun c => asc_desc_expression c.name order)

/-- A SQLAlchemy `Select` statement, reduced to the state the engine
manipulates: accumulated WHERE clauses, ORDER BY expressions, and
offset/limit. -/
structure Query where
  wheres : List FilterExpr := []
  orderBy : List OrderExpr := []
  offset : Option Int := none
  limit : Option Int := none
deriving Repr

/-- `query.where(e)`. -/
def Query.whereAdd (q : Query) (e : FilterExpr) : Query :=
  { q with wheres := q.wheres ++ [e] }

/-- `query.order_by(*es)` (appends to any existing ordering). -/
def Query.orderByAdd (q : Query) (es : List OrderExpr) : Query :=
  { q with orderBy := q.orderBy ++ es }

/-- `query.offset(n)`. -/
def Query.withOffset (q : Query) (n : Int) : Query := { q with offset := some n }

/-- `query.limit(n)`. -/
def Query.withLimit (q : Query) (n : Int) : Query := { q with limit := some n }

/-- `with_range`: apply offset/limit when `end >= 0`, otherwise return the
query unchanged. -/
def with_range (query : Query) (range_ : Int × Int) : Query :=
  if range_.2 ≥ 0 then
    (query.withOffset range_.1).withLimit (range_.2 - range_.1 + 1)
  else query

/-- The `data` dict handed to `apply_filter_sort_range_for_query`: a field is
`none` when its key is absent or its value falsy in the Python truthiness
tests (`data["filter"]` additionally tests the dict nonempty, which stays
explicit below). -/
structure QueryData where
  filter : Option Dict := none
  sort : Option (String × String) := none
  range : Option (Int × Int) := none

/-- `apply_filter_sort_range_for_query`.  The filter expression is applied to
both queries; ordering (explicit `sort_by`, else the request's sort, else
`fallback_sort`) and offset/limit go to the data query only.  The `.error`
case models the `AttributeError` raised by `getattr(Model, sort_field)` for a
field that is not a column. -/
def apply_filter_sort_range_for_query (M : Model) (query count_query : Query)
    (data : Option QueryData) (sort_by : List OrderExpr := [])
    (fallback_sort : List OrderExpr := []) (apply_range : Bool := true) :
    Except String (Query × Query) :=
  let d := data.getD {}
  let filtered : Query × Query :=
    match d.filter with
    | some f =>
      if f.isEmpty then (query, count_query)
      else
        match get_filter_expression M f with
        | some e => (query.whereAdd e, count_query.whereAdd e)
        | none => (query, count_query)
    | none => (query, count_query)
  let query := filtered.1
  let count_query := filtered.2
  let sorted : Except String Query :=
    if !sort_by.isEmpty then .ok (query.orderByAdd sort_by)
    else
      match d.sort with
      | some (sort_field, sort_order) =>
        match get_sort_by_key_and_order_expression M sort_field sort_order with
        | some order_expr => .ok (query.orderByAdd [order_expr])
        | none => .error "AttributeError"
      | none =>
        if !fallback_sort.isEmpty then .ok (query.orderByAdd fallback_sort)
        else .ok query
  match sorted with
  | .error e => .error e
  | .ok query =>
    let query :=
      if apply_range then
        match d.range with
        | some (range_from, range_to) =>
          if range_to ≥ 0 then
            (query.withOffset range_from).withLimit (range_to - range_from + 1)
          else query
        | none => query
      else query
    .ok (query, count_query)

/-- The filter expressions `apply_filter_sort_range_for_query` adds to both
queries: none when the `filter` entry is absent, falsy, or compiles to
nothing, otherwise the one compiled expression. -/
def appliedFilterExprs (M : Model) (f : Option Dict) : List FilterExpr :=
  match f with
  | some fs => if fs.isEmpty then [] else (get_filter_expression M fs).toList
  | none => []

/-- The ordering `apply_filter_sort_range_for_query` resolves for the data
query: explicit `sort_by` first, else the request's sort (which can fail with
`AttributeError`), else the fallback, else nothing. -/
def resolvedOrder (M : Model) (srt : Option (String × String))
    (sort_by fallback_sort : List OrderExpr) : Except String (List OrderExpr) :=
  if !sort_by.isEmpty then .ok sort_by
  else
    match srt with
    | some (sort_field, sort_order) =>
      match get_sort_by_key_and_order_expression M sort_field sort_order with
      | some order_expr => .ok [order_expr]
      | none => .error "AttributeError"
    | none =>
      if !fallback_sort.isEmpty then .ok fallback_sort else .ok []

/-- The pagination step of `apply_filter_sort_range_for_query`. -/
def appliedRange (rng : Option (Int × Int)) (apply_range : Bool) (q : Query) : Query :=
  if apply_range then
    match rng with
    | some (range_from, range_to) =>
      if range_to ≥ 0 then
        { q with offset := some range_from, limit := some (range_to - range_from + 1) }
      else q
    | none => q
  else q

/-- `generate_range`: the `Content-Range` header value. -/
def generate_range (range? : Option (Int × Int)) (count : Int) : String :=
  match range? with
  | none => "0-" ++ toString count ++ "/" ++ toString count
  | some (a, b) => toString a ++ "-" ++ toString b ++ "/" ++ toString count

/-! ## Sort-model validation (`schemas.py`) -/

/-- The `check_sort_by` field validator of `create_sort_model`: a value not in
the whitelist is silently replaced by `None`. -/
def check_sort_by (sort_fields : List String) (v : Option String) : Option String :=
  match v with
  | some s => if sort_fields.contains s then some s else none
  | none => none

/-- The `check_sort_order` field validator: a present value outside
`{ORDER_ASC, ORDER_DESC}` raises a `ValueError`. -/
def check_sort_order (v : Option String) : Except String (Option String) :=
  match v with
  | some s =>
    if s == ORDER_ASC || s == ORDER_DESC then .ok v
    else .error "sort order must be ASC or DESC"
  | none => .ok none

/-- Constructing the dynamically created `SortModel` runs both validators;
an error becomes a pydantic `ValidationError`. -/
def sort_model_validate (sort_fields : List String) (sort order : Option String) :
    Except String (Option String × Option String) :=
  match check_sort_order order with
  | .error e => .error e
  | .ok o => .ok (check_sort_by sort_fields sort, o)

/-- `CollectionQueryParams._parse_sort` after `json.loads` succeeded on a
two-element list: validate through the sort model (a `ValidationError`
surfaces as an HTTP 422), then return the raw `loaded_sort` — the validated
model, including its nulled sort field, is discarded. -/
def parse_sort (sort_fields : List String) (loaded_sort : String × String) :
    Except String (String × String) :=
  match sort_model_validate sort_fields (some loaded_sort.1) (some loaded_sort.2) with
  | .error e => .error e
  | .ok _ => .ok loaded_sort

/-! ## Evaluation semantics for filter expressions

Rows assign a scalar to every column name; predicates evaluate to a boolean.
This gives the claims about `or_`-composition their "a row satisfies the
predicate iff ..." reading. -/

/-- Strict ordering on scalars of the same shape (SQL comparisons across
incompatible types are modelled as false). -/
def scalarLt : Scalar → Scalar → Bool
  | .sInt a, .sInt b => a < b
  | .sStr a, .sStr b => a < b
  | .sBool a, .sBool b => !a && b
  | _, _ => false

/-- Non-strict ordering on scalars. -/
def scalarLe (a b : Scalar) : Bool := scalarLt a b || a == b

/-- SQL `LIKE` matching over lowered character lists: `%` matches any run of
characters, `_` any single character. -/
def likeMatch : List Char → List Char → Bool
  | [], [] => true
  | [], _ :: _ => false
  | '%' :: ps, cs =>
    likeMatch ps cs ||
      (match cs with
       | [] => false
       | _ :: cs' => likeMatch ('%' :: ps) cs')
  | '_' :: ps, cs =>
    (match cs with
     | [] => false
     | _ :: cs' => likeMatch ps cs')
  | p :: ps, cs =>
    (match cs with
     | [] => false
     | c :: cs' => p == c && likeMatch ps cs')
termination_by ps cs => ps.length + cs.length

/-- Case-insensitive `LIKE` (SQL `ILIKE`) of a text against a pattern. -/
def sqlIlike (text pattern : String) : Bool :=
  likeMatch (pattern.toList.map Char.toLower) (text.toList.map Char.toLower)

mutual

/-- Evaluate a filter expression at a row. -/
def evalFilter (row : String → Scalar) : FilterExpr → Bool
  | .gt c v => scalarLt v (row c)
  | .gte c v => scalarLe v (row c)
  | .lt c v => scalarLt (row c) v
  | .lte c v => scalarLe (row c) v
  | .eq c v => row c == v
  | .ne c v => row c != v
  | .inList c vs => vs.contains (row c)
  | .notInList c vs => !vs.contains (row c)
  | .ilike c pat => sqlIlike (row c).pyStr pat
  | .and_ es => evalAll row es
  | .or_ es => evalAny row es

/-- Conjunction of a list of filter expressions at a row. -/
def evalAll (row : String → Scalar) : List FilterExpr → Bool
  | [] => true
  | e :: es => evalFilter row e && evalAll row es

/-- Disjunction of a list of filter expressions at a row. -/
def evalAny (row : String → Scalar) : List FilterExpr → Bool
  | [] => false
  | e :: es => evalFilter row e || evalAny row es

end

/-! ## A heap of filter dicts

Python dicts are mutable objects passed by reference.  To settle the
no-shared-state-mutation claim honestly, the dict operations the engine
performs (`{k: v for ...}` allocation, `.pop`) are executed against an
explicit store of dict cells, and `get_filter_expression` is re-traced in
state-passing style over that store. -/

/-- A store of dict cells; references are indices. -/
structure Store where
  cells : List Dict
deriving Repr

/-- Dereference: out-of-range references read as the empty dict. -/
def Store.read (s : Store) (r : Nat) : Dict := s.cells.getD r []

/-- Allocate a fresh dict cell, returning its reference. -/
def Store.alloc (s : Store) (d : Dict) : Nat × Store :=
  (s.cells.length, ⟨s.cells ++ [d]⟩)

/-- Overwrite the cell behind a reference. -/
def Store.write (s : Store) (r : Nat) (d : Dict) : Store :=
  ⟨s.cells.set r d⟩

/-- `d.pop(k, None)`: return the stored value (or `None`) and remove the key,
mutating the cell in place. -/
def dict_pop (s : Store) (r : Nat) (k : String) : Value × Store :=
  (lookupVal (s.read r) k, s.write r ((s.read r).filter (fun p => p.1 != k)))

/-- `get_filter_expression`, re-traced over the store: the comprehension in
`exclude_keys_from_filter` allocates a fresh dict, `.pop("_query", None)`
mutates that fresh dict, and the loops read it. -/
def get_filter_expression_st (M : Model) (s : Store) (r : Nat) :
    Option FilterExpr × Store :=
  let alloc := s.alloc (exclude_keys_from_filter (s.read r) excludeFilterKeys)
  let popped := dict_pop alloc.2 alloc.1 "_query"
  let gq := popped.1
  let fs2 := popped.2.read alloc.1
  let fieldsFilters := fieldsFiltersOf M fs2
  let queryFilters := if gq ≠ pyNone then queryFiltersOf M fs2 gq else []
  (match fieldsFilters, queryFilters with
   | [], [] => none
   | _ :: _, _ :: _ => some (.and_ [.and_ fieldsFilters, .or_ queryFilters])
   | _ :: _, [] => some (.and_ fieldsFilters)
   | [], _ :: _ => some (.or_ queryFilters), popped.2)

/-- The `data` dict with its `filter` entry held by reference into the
store. -/
structure QueryDataSt where
  filter : Option Nat := none
  sort : Option (String × String) := none
  range : Option (Int × Int) := none

/-- `apply_filter_sort_range_for_query`, with the filter dict dereferenced
through the store (the only argument the engine could mutate). -/
def apply_filter_sort_range_for_query_st (M : Model) (query count_query : Query)
    (data : Option QueryDataSt) (sort_by : List OrderExpr)
    (fallback_sort : List OrderExpr) (apply_range : Bool) (s : Store) :
    Except String (Query × Query) × Store :=
  let d := data.getD {}
  let step1 : (Query × Query) × Store :=
    match d.filter with
    | some r =>
      if (s.read r).isEmpty then ((query, count_query), s)
      else
        let res := get_filter_expression_st M s r
        match res.1 with
        | some e => ((query.whereAdd e, count_query.whereAdd e), res.2)
        | none => ((query, count_query), res.2)
    | none => ((query, count_query), s)
  let query := step1.1.1
  let count_query := step1.1.2
  let sorted : Except String Query :=
    if !sort_by.isEmpty then .ok (query.orderByAdd sort_by)
    else
      match d.sort with
      | some (sort_field, sort_order) =>
        match get_sort_by_key_and_order_expression M sort_field sort_order with
        | some order_expr => .ok (query.orderByAdd [order_expr])
        | none => .error "AttributeError"
      | none =>
        if !fallback_sort.isEmpty then .ok (query.orderByAdd fallback_sort)
        else .ok query
  (match sorted with
   | .error e => .error e
   | .ok query =>
     let query :=
       if apply_range then
         match d.range with
         | some (range_from, range_to) =>
           if range_to ≥ 0 then
             (query.withOffset range_from).withLimit (range_to - range_from + 1)
           else query
         | none => query
       else query
     .ok (query, count_query), step1.2)

/-! ## General lemmas about evaluation -/

theorem evalAny_eq_any (row : String → Scalar) (es : List FilterExpr) :
    evalAny row es = es.any (evalFilter row) := by
  induction es with
  | nil => rfl
  | cons e es ih => simp [evalAny, ih]

theorem evalAll_eq_all (row : String → Scalar) (es : List FilterExpr) :
    evalAll row es = es.all (evalFilter row) := by
  induction es with
  | nil => rfl
  | cons e es ih => simp [evalAll, ih]

theorem evalFilter_or (row : String → Scalar) (es : List FilterExpr) :
    evalFilter row (.or_ es) = es.any (evalFilter row) := by
  rw [evalFilter, evalAny_eq_any]

theorem evalFilter_and (row : String → Scalar) (es : List FilterExpr) :
    evalFilter row (.and_ es) = es.all (evalFilter row) := by
  rw [evalFilter, evalAll_eq_all]

/-! ## Lemmas about dict lookups and the filter loops -/

theorem find?_middle_ne (l1 l2 : Dict) (k k' : String) (v : Value)
    (h : (k == k') = false) :
    List.find? (fun p => p.1 == k') (l1 ++ (k, v) :: l2) =
      List.find? (fun p => p.1 == k') (l1 ++ l2) := by
  induction l1 with
  | nil => simp [List.find?_cons, h]
  | cons p l1 ih =>
    simp only [List.cons_append, List.find?_cons]
    cases hpb : (p.1 == k') <;> simp [hpb, ih]

theorem lookupVal_middle_ne (l1 l2 : Dict) (k k' : String) (v : Value) (h : k ≠ k') :
    lookupVal (l1 ++ (k, v) :: l2) k' = lookupVal (l1 ++ l2) k' := by
  unfold lookupVal
  rw [find?_middle_ne _ _ _ _ _ (by simpa using h)]

theorem lookupVal_of_nodup (l : Dict) (k : String) (v : Value)
    (hnd : (l.map Prod.fst).Nodup) (hm : (k, v) ∈ l) : lookupVal l k = v := by
  induction l with
  | nil => cases hm
  | cons p l ih =>
    obtain ⟨hnotin, htail⟩ : (∀ x, (p.1, x) ∉ l) ∧ (l.map Prod.fst).Nodup := by
      simpa using hnd
    rcases List.mem_cons.mp hm with rfl | hm'
    · simp [lookupVal, List.find?_cons]
    · have hne : (p.1 == k) = false := by
        simp only [beq_eq_false_iff_ne]
        intro he
        exact hnotin v (by rw [he]; exact hm')
      have := ih htail hm'
      simpa [lookupVal, List.find?_cons, hne] using this

theorem lookupVal_not_mem (l : Dict) (k : String) (h : ∀ p ∈ l, p.1 ≠ k) :
    lookupVal l k = pyNone := by
  induction l with
  | nil => rfl
  | cons p l ih =>
    have hp : (p.1 == k) = false := by simpa using h p (List.mem_cons_self p l)
    have := ih (fun q hq => h q (List.mem_cons_of_mem p hq))
    simpa [lookupVal, List.find?_cons, hp] using this

theorem find?_exclude (l : Dict) (ks : List String) (k : String)
    (hk : ks.contains k = false) :
    List.find? (fun p => p.1 == k) (l.filter (fun p => !(ks.contains p.1))) =
      List.find? (fun p => p.1 == k) l := by
  induction l with
  | nil => rfl
  | cons p l ih =>
    rw [List.filter_cons]
    rcases hpk : (ks.contains p.1) with _ | _
    · simp only [hpk, Bool.not_false, if_true, List.find?_cons]
      cases hpb : (p.1 == k)
      · simp only [hpb]
        exact ih
      · simp only [hpb]
    · have hne : (p.1 == k) = false := by
        simp only [beq_eq_false_iff_ne]
        intro he
        rw [he, hk] at hpk
        cases hpk
      simp only [hpk, Bool.not_true, Bool.false_eq_true, if_false]
      rw [ih, List.find?_cons]
      simp [hne]

theorem lookupVal_exclude (l : Dict) (ks : List String) (k : String)
    (hk : ks.contains k = false) :
    lookupVal (exclude_keys_from_filter l ks) k = lookupVal l k := by
  unfold lookupVal exclude_keys_from_filter
  rw [find?_exclude l ks k hk]

theorem flatMap_congr_mem {α β : Type} {l : List α} (f g : α → List β)
    (h : ∀ a ∈ l, f a = g a) : l.flatMap f = l.flatMap g := by
  induction l with
  | nil => rfl
  | cons a as ih =>
    simp only [List.flatMap_cons, h a (List.mem_cons_self a as),
      ih (fun b hb => h b (List.mem_cons_of_mem a hb))]

theorem flatMap_nil_of_all {α β : Type} {l : List α} (f : α → List β)
    (h : ∀ a ∈ l, f a = []) : l.flatMap f = [] := by
  induction l with
  | nil => rfl
  | cons a as ih =>
    simp only [List.flatMap_cons, h a (List.mem_cons_self a as),
      ih (fun b hb => h b (List.mem_cons_of_mem a hb)), List.nil_append]

theorem safe_unpack_none_of_three (k : String)
    (h : 3 ≤ (pySplit k ':').length) : safe_unpack_filter k = (none, none) := by
  unfold safe_unpack_filter
  rcases hs : pySplit k ':' with _ | ⟨a, _ | ⟨b, _ | ⟨c, rest⟩⟩⟩ <;>
    rw [hs] at h <;> simp at h ⊢ <;> omega

/-- `get_filter_expression` yields nothing when the explicit loop collects
nothing and the popped `_query` value is `None`. -/
theorem get_filter_expression_none (M : Model) (filters : Dict)
    (hff : fieldsFiltersOf M (filtersPrepared filters) = [])
    (hgq : globalQueryOf filters = pyNone) :
    get_filter_expression M filters = none := by
  unfold get_filter_expression
  unfold filtersPrepared at hff
  unfold globalQueryOf at hgq
  simp only [hff, hgq, ne_eq, not_true, if_false]

/-- `get_filter_expression` when both loops collect something: the AND of
the explicit predicates with the OR of the global-search predicates. -/
theorem get_filter_expression_both (M : Model) (filters : Dict)
    (a b : FilterExpr) (as bs : List FilterExpr)
    (hff : fieldsFiltersOf M (filtersPrepared filters) = a :: as)
    (hgq : globalQueryOf filters ≠ pyNone)
    (hfq : queryFiltersOf M (filtersPrepared filters) (globalQueryOf filters) = b :: bs) :
    get_filter_expression M filters =
      some (.and_ [.and_ (a :: as), .or_ (b :: bs)]) := by
  unfold get_filter_expression
  unfold filtersPrepared at hff hfq
  unfold globalQueryOf at hgq hfq
  simp only [hff, hfq, if_pos hgq]

/-- `get_filter_expression` only looks at its input through the prepared
dict, the popped `_query` value, and the two loops. -/
theorem get_filter_expression_ext (M : Model) (fsA fsB : Dict)
    (h1 : globalQueryOf fsA = globalQueryOf fsB)
    (h2 : fieldsFiltersOf M (filtersPrepared fsA) = fieldsFiltersOf M (filtersPrepared fsB))
    (h3 : globalQueryOf fsA ≠ pyNone →
      queryFiltersOf M (filtersPrepared fsA) (globalQueryOf fsA) =
        queryFiltersOf M (filtersPrepared fsB) (globalQueryOf fsB)) :
    get_filter_expression M fsA = get_filter_expression M fsB := by
  by_cases hgq : globalQueryOf fsA = pyNone
  · unfold get_filter_expression
    unfold filtersPrepared at h2
    unfold globalQueryOf at h1 hgq
    dsimp only
    rw [h2, hgq, ← h1, hgq]
    simp
  · unfold get_filter_expression
    unfold filtersPrepared at h2 h3
    unfold globalQueryOf at h1 h3 hgq
    dsimp only
    rw [h3 hgq, h2, h1]

theorem explicitFilterFor_congr (M : Model) (dA dB : Dict) (key : String)
    (h : lookupVal dA key = lookupVal dB key) :
    explicitFilterFor M dA key = explicitFilterFor M dB key := by
  unfold explicitFilterFor
  rw [h]

theorem explicitFilterFor_unparsable (M : Model) (d : Dict) (key : String)
    (h : (safe_unpack_filter key).1 = none) :
    explicitFilterFor M d key = [] := by
  unfold explicitFilterFor
  rcases hsu : safe_unpack_filter key with ⟨_ | fkey, op⟩
  · rfl
  · rw [hsu] at h
    cases h

theorem globalFilterFor_unparsable (M : Model) (gq : Value) (key : String)
    (h : (safe_unpack_filter key).1 = none) :
    globalFilterFor M gq key = [] := by
  unfold globalFilterFor
  rcases hsu : safe_unpack_filter key with ⟨_ | fkey, op⟩
  · rfl
  · rw [hsu] at h
    cases h

theorem explicitFilterFor_null (M : Model) (d : Dict) (key : String)
    (h : lookupVal d key = pyNone) :
    explicitFilterFor M d key = [] := by
  unfold explicitFilterFor
  rcases hsu : safe_unpack_filter key with ⟨_ | fkey, op⟩
  · rfl
  · rw [h]
    simp

/-- `filtersPrepared` as a single filter. -/
theorem filtersPrepared_filter (l : Dict) :
    filtersPrepared l =
      l.filter (fun p => (p.1 != "_query") && !(excludeFilterKeys.contains p.1)) := by
  unfold filtersPrepared exclude_keys_from_filter
  rw [List.filter_filter]

/-- Splitting `filtersPrepared` around one entry. -/
theorem filtersPrepared_middle (l1 l2 : Dict) (k : String) (v : Value) :
    filtersPrepared (l1 ++ (k, v) :: l2) =
      filtersPrepared l1 ++
        (if (k != "_query") && !(excludeFilterKeys.contains k) then [(k, v)] else []) ++
        filtersPrepared l2 := by
  simp only [filtersPrepared_filter]
  rw [List.filter_append, List.filter_cons]
  cases hkp : ((k != "_query") && !(excludeFilterKeys.contains k)) <;> simp [hkp]

/-- Removing an entry that contributes nothing to the explicit loop, when all
other entries are unaffected. -/
theorem fieldsFiltersOf_middle_inert (M : Model) (P1 P2 : Dict) (k : String) (v : Value)
    (hent : explicitFilterFor M (P1 ++ (k, v) :: P2) k = [])
    (hcong : ∀ p ∈ P1 ++ P2,
      explicitFilterFor M (P1 ++ (k, v) :: P2) p.1 =
        explicitFilterFor M (P1 ++ P2) p.1) :
    fieldsFiltersOf M (P1 ++ (k, v) :: P2) = fieldsFiltersOf M (P1 ++ P2) := by
  unfold fieldsFiltersOf
  rw [List.flatMap_append, List.flatMap_append, List.flatMap_cons, hent, List.nil_append]
  rw [flatMap_congr_mem
    (fun p => explicitFilterFor M (P1 ++ (k, v) :: P2) p.1)
    (fun p => explicitFilterFor M (P1 ++ P2) p.1)
    (fun a ha => hcong a (List.mem_append_left _ ha)),
    flatMap_congr_mem
    (fun p => explicitFilterFor M (P1 ++ (k, v) :: P2) p.1)
    (fun p => explicitFilterFor M (P1 ++ P2) p.1)
    (fun a ha => hcong a (List.mem_append_right _ ha))]

/-- Removing an entry that contributes nothing to the global-search loop
(which reads nothing else from the dict). -/
theorem queryFiltersOf_middle_inert (M : Model) (P1 P2 : Dict) (k : String)
    (v gq : Value) (hent : globalFilterFor M gq k = []) :
    queryFiltersOf M (P1 ++ (k, v) :: P2) gq = queryFiltersOf M (P1 ++ P2) gq := by
  unfold queryFiltersOf
  rw [List.flatMap_append, List.flatMap_append, List.flatMap_cons, hent, List.nil_append]

theorem filtersPrepared_append (l1 l2 : Dict) :
    filtersPrepared (l1 ++ l2) = filtersPrepared l1 ++ filtersPrepared l2 := by
  simp only [filtersPrepared_filter]
  rw [List.filter_append]

theorem filtersPrepared_middle_kept (l1 l2 : Dict) (k : String) (v : Value)
    (hkp : ((k != "_query") && !(excludeFilterKeys.contains k)) = true) :
    filtersPrepared (l1 ++ (k, v) :: l2) =
      filtersPrepared l1 ++ (k, v) :: filtersPrepared l2 := by
  rw [filtersPrepared_middle]
  obtain ⟨hk1, hk2⟩ : k ≠ "_query" ∧ k ∉ excludeFilterKeys := by simpa using hkp
  simp [hk1, hk2]

theorem filtersPrepared_middle_dropped (l1 l2 : Dict) (k : String) (v : Value)
    (hkp : ((k != "_query") && !(excludeFilterKeys.contains k)) = false) :
    filtersPrepared (l1 ++ (k, v) :: l2) = filtersPrepared l1 ++ filtersPrepared l2 := by
  rw [filtersPrepared_middle]
  have h' : ¬(¬k = "_query" ∧ k ∉ excludeFilterKeys) := by
    intro hc
    rw [show (k != "_query") = true by simpa using hc.1,
      show (excludeFilterKeys.contains k) = false by simpa using hc.2] at hkp
    simp at hkp
  simp [h']

theorem filtersPrepared_nodup_fst (l : Dict) (hnd : (l.map Prod.fst).Nodup) :
    ((filtersPrepared l).map Prod.fst).Nodup := by
  rw [filtersPrepared_filter]
  exact List.Nodup.sublist (List.Sublist.map Prod.fst (List.filter_sublist l)) hnd

theorem mem_of_mem_filtersPrepared {p : String × Value} {l : Dict}
    (h : p ∈ filtersPrepared l) : p ∈ l := by
  rw [filtersPrepared_filter] at h
  exact (List.mem_filter.mp h).1

/-- In a dict with `Nodup` keys, every other entry's key differs from the
middle entry's. -/
theorem nodup_middle_fst (l1 l2 : Dict) (k : String) (v : Value)
    (hnd : ((l1 ++ (k, v) :: l2).map Prod.fst).Nodup) :
    ∀ p ∈ l1 ++ l2, p.1 ≠ k := by
  rw [List.map_append, List.map_cons] at hnd
  have hmid := List.nodup_middle.mp hnd
  obtain ⟨hnotin, _⟩ := List.nodup_cons.mp hmid
  intro p hp he
  apply hnotin
  rw [← List.map_append]
  exact List.mem_map.mpr ⟨p, hp, he⟩

/-- Normal form of `apply_filter_sort_range_for_query`: the compiled filter
expressions are appended to both queries' WHERE lists, the resolved ordering
to the data query's ORDER BY, and pagination to the data query only. -/
theorem apply_filter_sort_range_eq (M : Model) (q cq : Query)
    (data : Option QueryData) (sb fb : List OrderExpr) (ar : Bool) :
    apply_filter_sort_range_for_query M q cq data sb fb ar =
      match resolvedOrder M (data.getD {}).sort sb fb with
      | .error e => .error e
      | .ok os =>
        .ok (appliedRange (data.getD {}).range ar
              { q with
                wheres := q.wheres ++ appliedFilterExprs M (data.getD {}).filter,
                orderBy := q.orderBy ++ os },
             { cq with
                wheres := cq.wheres ++ appliedFilterExprs M (data.getD {}).filter }) := by
  have main : ∀ (f : Option Dict) (srt : Option (String × String))
      (rng : Option (Int × Int)),
      apply_filter_sort_range_for_query M q cq (some ⟨f, srt, rng⟩) sb fb ar =
        match resolvedOrder M srt sb fb with
        | .error e => .error e
        | .ok os =>
          .ok (appliedRange rng ar
                { q with wheres := q.wheres ++ appliedFilterExprs M f,
                         orderBy := q.orderBy ++ os },
               { cq with wheres := cq.wheres ++ appliedFilterExprs M f }) := by
    intro f srt rng
    rcases f with _ | fs
    · rcases sb with _ | ⟨o1, sb1⟩
      · rcases srt with _ | ⟨sf, so⟩
        · rcases fb with _ | ⟨o2, fb1⟩ <;> rcases ar with _ | _ <;>
            rcases rng with _ | ⟨ra, rb⟩ <;>
            unfold apply_filter_sort_range_for_query resolvedOrder appliedFilterExprs
              appliedRange <;>
            simp_all [Option.getD, Query.whereAdd, Query.orderByAdd, Query.withOffset,
              Query.withLimit]
        · rcases hoe : get_sort_by_key_and_order_expression M sf so with _ | oe <;>
            rcases fb with _ | ⟨o2, fb1⟩ <;> rcases ar with _ | _ <;>
            rcases rng with _ | ⟨ra, rb⟩ <;>
            unfold apply_filter_sort_range_for_query resolvedOrder appliedFilterExprs
              appliedRange <;>
            simp_all [Option.getD, Query.whereAdd, Query.orderByAdd, Query.withOffset,
              Query.withLimit]
      · rcases fb with _ | ⟨o2, fb1⟩ <;> rcases ar with _ | _ <;>
          rcases rng with _ | ⟨ra, rb⟩ <;>
          unfold apply_filter_sort_range_for_query resolvedOrder appliedFilterExprs
            appliedRange <;>
          simp_all [Option.getD, Query.whereAdd, Query.orderByAdd, Query.withOffset,
            Query.withLimit]
    · rcases hge : (match fs with
          | [] => none
          | p0 :: fs1 => get_filter_expression M (p0 :: fs1)) with _ | e0 <;>
        rcases fs with _ | ⟨p0, fs1⟩ <;>
        rcases sb with _ | ⟨o1, sb1⟩
      all_goals try simp only [reduceCtorEq] at hge
      all_goals
        (rcases srt with _ | ⟨sf, so⟩
         · rcases fb with _ | ⟨o2, fb1⟩ <;> rcases ar with _ | _ <;>
             rcases rng with _ | ⟨ra, rb⟩ <;>
             unfold apply_filter_sort_range_for_query resolvedOrder appliedFilterExprs
               appliedRange <;>
             simp_all [Option.getD, Query.whereAdd, Query.orderByAdd, Query.withOffset,
               Query.withLimit]
         · rcases hoe : get_sort_by_key_and_order_expression M sf so with _ | oe <;>
             rcases fb with _ | ⟨o2, fb1⟩ <;> rcases ar with _ | _ <;>
             rcases rng with _ | ⟨ra, rb⟩ <;>
             unfold apply_filter_sort_range_for_query resolvedOrder appliedFilterExprs
               appliedRange <;>
             simp_all [Option.getD, Query.whereAdd, Query.orderByAdd, Query.withOffset,
               Query.withLimit])
  rcases data with _ | d
  · exact main none none none
  · obtain ⟨f, srt, rng⟩ := d
    exact main f srt rng

theorem appliedRange_wheres (rng : Option (Int × Int)) (ar : Bool) (X : Query) :
    (appliedRange rng ar X).wheres = X.wheres := by
  rcases ar <;> rcases rng with _ | ⟨a, b⟩ <;> simp [appliedRange] <;> split <;> rfl

theorem appliedRange_orderBy (rng : Option (Int × Int)) (ar : Bool) (X : Query) :
    (appliedRange rng ar X).orderBy = X.orderBy := by
  rcases ar <;> rcases rng with _ | ⟨a, b⟩ <;> simp [appliedRange] <;> split <;> rfl

theorem Store.read_alloc_lt (s : Store) (d : Dict) (r : Nat) (h : r < s.cells.length) :
    (s.alloc d).2.read r = s.read r := by
  simp [Store.alloc, Store.read, List.getD, List.getElem?_append, h]

theorem Store.read_alloc_self (s : Store) (d : Dict) :
    (s.alloc d).2.read (s.alloc d).1 = d := by
  simp [Store.alloc, Store.read, List.getD]

theorem Store.read_write_self (s : Store) (r : Nat) (d : Dict)
    (h : r < s.cells.length) :
    (s.write r d).read r = d := by
  simp [Store.write, Store.read, List.getD, List.getElem?_set, h]

theorem Store.read_write_ne (s : Store) (r r' : Nat) (d : Dict) (h : r ≠ r') :
    (s.write r' d).read r = s.read r := by
  simp [Store.write, Store.read, List.getD, List.getElem?_set, Ne.symm h]

/-- The store-level `get_filter_expression` computes the pure result, leaves
the caller's dict untouched, and grows the store by the one allocated cell. -/
theorem get_filter_expression_st_spec (M : Model) (s : Store) (r : Nat)
    (h : r < s.cells.length) :
    (get_filter_expression_st M s r).1 = get_filter_expression M (s.read r) ∧
    (get_filter_expression_st M s r).2.read r = s.read r ∧
    (get_filter_expression_st M s r).2.cells.length = s.cells.length + 1 := by
  have hne : r ≠ (s.alloc (exclude_keys_from_filter (s.read r) excludeFilterKeys)).1 := by
    simp only [Store.alloc]
    omega
  have hlt : (s.alloc (exclude_keys_from_filter (s.read r) excludeFilterKeys)).1 <
      (s.alloc (exclude_keys_from_filter (s.read r) excludeFilterKeys)).2.cells.length := by
    simp [Store.alloc]
  have h1 : (s.alloc (exclude_keys_from_filter (s.read r) excludeFilterKeys)).2.read
      (s.alloc (exclude_keys_from_filter (s.read r) excludeFilterKeys)).1 =
      exclude_keys_from_filter (s.read r) excludeFilterKeys :=
    Store.read_alloc_self s _
  refine ⟨?_, ?_, ?_⟩
  · unfold get_filter_expression_st dict_pop get_filter_expression
    simp only [h1, Store.read_write_self _ _ _ hlt]
  · unfold get_filter_expression_st dict_pop
    simp only [Store.read_write_ne _ _ _ _ hne, Store.read_alloc_lt s _ r h]
  · unfold get_filter_expression_st dict_pop Store.alloc Store.write
    simp

/-- The store-level `apply_filter_sort_range_for_query` computes what the
pure function computes on the dereferenced filter dict, and does not mutate
the caller's dict cell. -/
theorem apply_filter_sort_range_st_spec (M : Model) (q cq : Query)
    (srt : Option (String × String)) (rng : Option (Int × Int)) (r : Nat)
    (sb fb : List OrderExpr) (ar : Bool) (s : Store) (h : r < s.cells.length) :
    (apply_filter_sort_range_for_query_st M q cq
        (some ⟨some r, srt, rng⟩) sb fb ar s).1 =
      apply_filter_sort_range_for_query M q cq
        (some ⟨some (s.read r), srt, rng⟩) sb fb ar ∧
    (apply_filter_sort_range_for_query_st M q cq
        (some ⟨some r, srt, rng⟩) sb fb ar s).2.read r = s.read r ∧
    r < (apply_filter_sort_range_for_query_st M q cq
        (some ⟨some r, srt, rng⟩) sb fb ar s).2.cells.length := by
  obtain ⟨hg1, hg2, hg3⟩ := get_filter_expression_st_spec M s r h
  rcases he : (s.read r).isEmpty with _ | _
  · refine ⟨?_, ?_, ?_⟩
    · unfold apply_filter_sort_range_for_query_st apply_filter_sort_range_for_query
      simp only [Option.getD, he, Bool.false_eq_true, if_false, hg1]
      rcases hge : get_filter_expression M (s.read r) with _ | e0 <;> simp
    · unfold apply_filter_sort_range_for_query_st
      simp only [Option.getD, he, Bool.false_eq_true, if_false]
      rcases hge : get_filter_expression M (s.read r) with _ | e0 <;>
        simp only [hg1, hge] <;> exact hg2
    · unfold apply_filter_sort_range_for_query_st
      simp only [Option.getD, he, Bool.false_eq_true, if_false]
      rcases hge : get_filter_expression M (s.read r) with _ | e0 <;>
        simp only [hg1, hge] <;> omega
  · refine ⟨?_, ?_, ?_⟩
    · unfold apply_filter_sort_range_for_query_st apply_filter_sort_range_for_query
      simp only [Option.getD, he, if_true]
    · unfold apply_filter_sort_range_for_query_st
      simp only [Option.getD, he, if_true]
    · unfold apply_filter_sort_range_for_query_st
      simp only [Option.getD, he, if_true]
      exact h

/-! ## Claim theorems -/

/-- Claim C1: for a single (non-OR-group) clause on a temporal, integer, or
boolean column with a scalar value, `_append_filter_column_to` builds exactly
the comparison named by the operator token (`gt`→`>`, `gte`→`>=`, `lt`→`<`,
`lte`→`<=`, `eq` or absent→`=`, `ne`→`≠`), never a substring match, and any
operator outside this set falls back to equality. -/
theorem c1_scalar_comparison_operator_semantics (c : Column) (v : Scalar)
    (op : Option String) (h : isComparisonColType (colTypeOf c) = true) :
    (op = some "gt" →
      append_filter_column_to (.multiple [c]) (.scalar v) op = [.gt c.name v]) ∧
    (op = some "gte" →
      append_filter_column_to (.multiple [c]) (.scalar v) op = [.gte c.name v]) ∧
    (op = some "lt" →
      append_filter_column_to (.multiple [c]) (.scalar v) op = [.lt c.name v]) ∧
    (op = some "lte" →
      append_filter_column_to (.multiple [c]) (.scalar v) op = [.lte c.name v]) ∧
    (op = some "eq" →
      append_filter_column_to (.multiple [c]) (.scalar v) op = [.eq c.name v]) ∧
    (op = some "ne" →
      append_filter_column_to (.multiple [c]) (.scalar v) op = [.ne c.name v]) ∧
    (op = none →
      append_filter_column_to (.multiple [c]) (.scalar v) op = [.eq c.name v]) ∧
    (op ∉ ([some "gt", some "gte", some "lt", some "lte", some "eq", some "ne"] :
        List (Option String)) →
      append_filter_column_to (.multiple [c]) (.scalar v) op = [.eq c.name v]) ∧
    (∀ colName pat,
      append_filter_column_to (.multiple [c]) (.scalar v) op ≠ [.ilike colName pat]) := by
  refine ⟨?_, ?_, ?_, ?_, ?_, ?_, ?_, ?_, ?_⟩ <;>
    simp only [append_filter_column_to, filterExprSingle, h, if_pos]
  · rintro rfl; rfl
  · rintro rfl; rfl
  · rintro rfl; rfl
  · rintro rfl; rfl
  · rintro rfl; rfl
  · rintro rfl; rfl
  · rintro rfl; rfl
  · intro hop
    simp only [List.mem_cons, List.not_mem_nil, or_false] at hop
    push_neg at hop
    obtain ⟨h1, h2, h3, h4, h5, h6⟩ := hop
    rcases op with _ | s
    · rfl
    · split <;> simp_all
  · intro colName pat
    split <;> simp

/-- Witness for C1 at an integer column, operator `gte`, value `5`. -/
theorem c1_scalar_comparison_operator_semantics_witness :
    isComparisonColType (colTypeOf (mkCol "age" .integer)) = true ∧
    append_filter_column_to (.multiple [mkCol "age" .integer])
      (.scalar (.sInt 5)) (some "gte") = [.gte "age" (.sInt 5)] :=
  ⟨rfl, (c1_scalar_comparison_operator_semantics (mkCol "age" .integer)
    (.sInt 5) (some "gte") rfl).2.1 rfl⟩

/-- Claim C2: a scalar filter on a text-kind column becomes a
case-insensitive substring match `%value%` whatever the operator token, and a
list value becomes set membership whatever the column kind — `NOT IN` exactly
for operator `nin`, `IN` otherwise. -/
theorem c2_text_ilike_and_list_membership (c : Column) (v : Scalar)
    (xs : List Scalar) (op : Option String) :
    (isComparisonColType (colTypeOf c) = false →
      append_filter_column_to (.multiple [c]) (.scalar v) op =
        [.ilike c.name ("%" ++ v.pyStr ++ "%")]) ∧
    (append_filter_column_to (.multiple [c]) (.vList xs) op =
      if op = some "nin" then [.notInList c.name xs] else [.inList c.name xs]) := by
  constructor
  · intro h
    simp [append_filter_column_to, filterExprSingle, h]
  · by_cases h : op = some "nin" <;>
      simp [append_filter_column_to, filterExprSingle, h]

/-- Witness for C2 at a string column, operator `gt` (ignored), value `"x"`,
and a list value with operator `nin`. -/
theorem c2_text_ilike_and_list_membership_witness :
    isComparisonColType (colTypeOf (mkCol "name" .string)) = false ∧
    append_filter_column_to (.multiple [mkCol "name" .string])
      (.scalar (.sStr "x")) (some "gt") = [.ilike "name" "%x%"] :=
  ⟨rfl, (c2_text_ilike_and_list_membership (mkCol "name" .string)
    (.sStr "x") [] (some "gt")).1 rfl⟩

/-- Claim C4 at its failing input: with whitelist `["name"]` and requested
sort `["created", "ASC"]`, the sort validator nulls the non-whitelisted field
but `_parse_sort` discards the validated model and returns the raw request,
so the data query does end up ordered by `created` — the field is not
treated as absent.  An invalid direction is still a validation error. -/
theorem c4_sort_whitelist_not_applied :
    check_sort_by ["name"] (some "created") = none ∧
    parse_sort ["name"] ("created", "ASC") = .ok ("created", "ASC") ∧
    parse_sort ["name"] ("created", "SIDEWAYS") =
      .error "sort order must be ASC or DESC" ∧
    apply_filter_sort_range_for_query
        [mkCol "name" .string, mkCol "created" .dateTime] {} {}
        (some { sort := some ("created", "ASC") }) [] [] true =
      .ok ({ orderBy := [.asc "created"] }, {}) :=
  ⟨rfl, rfl, rfl, rfl⟩

/-- Claim C6: `end >= 0` yields offset `start` and limit `end - start + 1`
(so `[0,9]` asks for exactly 10 rows); `end < 0` leaves the query untouched
(explicit opt-out, no error); an absent range in the request data likewise
applies no offset or limit. -/
theorem c6_range_pagination (q : Query) (s e : Int) :
    (with_range q (s, e) =
      if e ≥ 0 then { q with offset := some s, limit := some (e - s + 1) } else q) ∧
    (with_range q (0, 9)).limit = some 10 ∧
    (∀ (M : Model) (cq : Query) (f : Option Dict) (sb fb : List OrderExpr)
        (ar : Bool) (q' cq' : Query),
      apply_filter_sort_range_for_query M q cq
          (some { filter := f, sort := none, range := none }) sb fb ar =
        .ok (q', cq') →
      q'.offset = q.offset ∧ q'.limit = q.limit) ∧
    (∀ (M : Model) (cq : Query) (f : Option Dict) (sb fb : List OrderExpr)
        (q' cq' : Query) (rs re : Int),
      re ≥ 0 →
      apply_filter_sort_range_for_query M q cq
          (some { filter := f, sort := none, range := some (rs, re) }) sb fb true =
        .ok (q', cq') →
      q'.offset = some rs ∧ q'.limit = some (re - rs + 1)) ∧
    (∀ (M : Model) (cq : Query) (f : Option Dict) (sb fb : List OrderExpr)
        (q' cq' : Query) (rs re : Int),
      re < 0 →
      apply_filter_sort_range_for_query M q cq
          (some { filter := f, sort := none, range := some (rs, re) }) sb fb true =
        .ok (q', cq') →
      q'.offset = q.offset ∧ q'.limit = q.limit) := by
  refine ⟨?_, ?_, ?_, ?_, ?_⟩
  · by_cases h : e ≥ 0 <;>
      simp [with_range, h, Query.withOffset, Query.withLimit]
  · simp [with_range, Query.withOffset, Query.withLimit]
  · intro M cq f sb fb ar q' cq' h
    rw [apply_filter_sort_range_eq] at h
    simp only [Option.getD] at h
    rcases hro : resolvedOrder M none sb fb with e0 | os
    · rw [hro] at h
      exact absurd h (by simp)
    · rw [hro] at h
      simp only [Except.ok.injEq, Prod.mk.injEq] at h
      obtain ⟨h1, _⟩ := h
      subst h1
      simp [appliedRange]
  · intro M cq f sb fb q' cq' rs re hre h
    rw [apply_filter_sort_range_eq] at h
    simp only [Option.getD] at h
    rcases hro : resolvedOrder M none sb fb with e0 | os
    · rw [hro] at h
      exact absurd h (by simp)
    · rw [hro] at h
      simp only [Except.ok.injEq, Prod.mk.injEq] at h
      obtain ⟨h1, _⟩ := h
      subst h1
      simp [appliedRange, hre]
  · intro M cq f sb fb q' cq' rs re hre h
    rw [apply_filter_sort_range_eq] at h
    simp only [Option.getD] at h
    rcases hro : resolvedOrder M none sb fb with e0 | os
    · rw [hro] at h
      exact absurd h (by simp)
    · rw [hro] at h
      simp only [Except.ok.injEq, Prod.mk.injEq] at h
      obtain ⟨h1, _⟩ := h
      subst h1
      simp [appliedRange, not_le.mpr hre]

/-- Witness for C6: range `[0,9]` gives offset 0 and limit 10, and an absent
range applies no pagination. -/
theorem c6_range_pagination_witness :
    with_range {} (0, 9) = { offset := some 0, limit := some 10 } ∧
    (({} : Query).offset = ({} : Query).offset ∧
      ({} : Query).limit = ({} : Query).limit) ∧
    (({ offset := some 0, limit := some 10 } : Query).offset = some 0 ∧
      ({ offset := some 0, limit := some 10 } : Query).limit = some (9 - 0 + 1)) := by
  have h := c6_range_pagination {} 0 9
  refine ⟨?_, h.2.2.1 [] {} none [] [] true {} {} rfl,
    h.2.2.2.1 [] {} none [] [] { offset := some 0, limit := some 10 } {} 0 9
      (by norm_num) rfl⟩
  rw [h.1]
  norm_num

/-- Claim C7: `generate_range` renders `None` as `"0-{total}/{total}"` and a
present range verbatim as `"{start}-{end}/{total}"`, never clamping `end` to
`total - 1` (e.g. range `[0,100]` over a total of 5). -/
theorem c7_generate_range_format (count : Int) (h : 0 ≤ count) :
    generate_range none count = "0-" ++ toString count ++ "/" ++ toString count ∧
    (∀ s e : Int, generate_range (some (s, e)) count =
      toString s ++ "-" ++ toString e ++ "/" ++ toString count) ∧
    generate_range (some (0, 100)) 5 = "0-100/5" :=
  ⟨rfl, fun _ _ => rfl, rfl⟩

/-- Witness for C7 at total 7. -/
theorem c7_generate_range_format_witness :
    (0 : Int) ≤ 7 ∧ generate_range none 7 = "0-7/7" :=
  ⟨by norm_num, (c7_generate_range_format 7 (by norm_num)).1⟩

/-- Counterexample to C5 as stated: on a model with a `Date` column `d`
explicitly filtered, and an empty-string global term, the code still emits a
global-search predicate (an equality on the `Date` column, since `Date` is
absent from the global-search exclusion tuple and `Date` takes the
comparison path) — the claim predicts the explicit predicate alone. -/
theorem c5_counterexample :
    get_filter_expression [mkCol "d" .date]
        [("d", .scalar (.sStr "2024-01-01")), ("_query", .scalar (.sStr ""))] =
      some (.and_ [.and_ [.eq "d" (.sStr "2024-01-01")],
                   .or_ [.eq "d" (.sStr "")]]) ∧
    get_filter_expression [mkCol "d" .date]
        [("d", .scalar (.sStr "2024-01-01")), ("_query", .scalar (.sStr ""))] ≠
      some (.and_ [.eq "d" (.sStr "2024-01-01")]) := by
  refine ⟨rfl, ?_⟩
  intro h
  rw [show get_filter_expression [mkCol "d" .date]
      [("d", .scalar (.sStr "2024-01-01")), ("_query", .scalar (.sStr ""))] =
      some (.and_ [.and_ [.eq "d" (.sStr "2024-01-01")],
                   .or_ [.eq "d" (.sStr "")]]) from rfl] at h
  simp at h

/-- Counterexample to C10 as stated: a null-valued filter key does constrain
the result set when a non-`None` `_query` term is present — its field feeds
the global-search OR.  With the null entry the map compiles to a predicate;
without it, to nothing. -/
theorem c10_counterexample :
    get_filter_expression [mkCol "name" .string]
        [("name", pyNone), ("_query", .scalar (.sStr "foo"))] =
      some (.or_ [.ilike "name" "%foo%"]) ∧
    get_filter_expression [mkCol "name" .string]
        [("_query", .scalar (.sStr "foo"))] = none ∧
    (some (FilterExpr.or_ [.ilike "name" "%foo%"]) : Option FilterExpr) ≠ none := by
  exact ⟨rfl, rfl, by simp⟩

/-- Claim C3: for a raw key of the form `"a|b"` with a non-`None` scalar
value, field names missing from the model are dropped; two or more survivors
produce the OR of the per-field predicates (a row satisfies the emitted
predicate iff it satisfies some per-field predicate), exactly one survivor
produces that field's own predicate, and no survivor produces no predicate
and no error. -/
theorem c3_or_group_semantics (M : Model) (rawKey fkey : String) (op : Option String)
    (v : Scalar) (survivors : List Column) (preds : List FilterExpr)
    (hparse : safe_unpack_filter rawKey = (some fkey, op))
    (hex : excludeFilterKeys.contains rawKey = false)
    (hq : rawKey ≠ "_query")
    (hv : v ≠ .sNone)
    (hs : survivors = (pySplit fkey '|').filterMap (getCol M))
    (hp : preds = survivors.map (fun c => filterExprSingle c (.scalar v) op)) :
    (survivors = [] → get_filter_expression M [(rawKey, .scalar v)] = none) ∧
    (∀ c, survivors = [c] →
      get_filter_expression M [(rawKey, .scalar v)] =
        some (.and_ [filterExprSingle c (.scalar v) op])) ∧
    (2 ≤ survivors.length →
      get_filter_expression M [(rawKey, .scalar v)] = some (.and_ [.or_ preds]) ∧
      ∀ row, evalFilter row (.and_ [.or_ preds]) = true ↔
        ∃ p ∈ preds, evalFilter row p = true) := by
  have hbq : (rawKey == "_query") = false := by simpa using hq
  have hbv : ((Value.scalar v == pyNone) : Bool) = false := by
    simpa [pyNone] using hv
  have hmain : get_filter_expression M [(rawKey, .scalar v)] =
      match survivors with
      | [] => none
      | [c] => some (.and_ [filterExprSingle c (.scalar v) op])
      | _ => some (.and_ [.or_ preds]) := by
    unfold get_filter_expression fieldsFiltersOf queryFiltersOf
    simp only [exclude_keys_from_filter, List.filter_cons, List.filter_nil, hex,
      Bool.not_false, if_true, lookupVal, List.find?_cons, hbq, bne, cond_false,
      List.find?_nil, List.flatMap_cons, List.flatMap_nil, List.append_nil]
    simp only [explicitFilterFor, hparse, lookupVal, List.find?_cons, beq_self_eq_true,
      cond_true, hbv, Bool.false_eq_true, if_false, ← hs, ne_eq, eq_self_iff_true,
      not_true, if_false]
    rcases survivors with _ | ⟨c1, _ | ⟨c2, rest⟩⟩
    · simp [append_filter_column_to]
    · simp [append_filter_column_to, hp]
    · simp [append_filter_column_to, hp]
  refine ⟨?_, ?_, ?_⟩
  · intro h0
    subst h0
    simpa using hmain
  · intro c h1
    subst h1
    simpa using hmain
  · intro h2
    rcases survivors with _ | ⟨c1, _ | ⟨c2, rest⟩⟩
    · simp at h2
    · simp at h2
    · refine ⟨by simpa using hmain, ?_⟩
      intro row
      simp [evalFilter, evalAll, evalAny_eq_any, List.any_eq_true]

/-- Witness for C3: both fields of `"a|b"` exist on the model, so the map
compiles to the OR of the two equality predicates. -/
theorem c3_or_group_semantics_witness :
    get_filter_expression [mkCol "a" .integer, mkCol "b" .integer]
        [("a|b", .scalar (.sInt 1))] =
      some (.and_ [.or_ [.eq "a" (.sInt 1), .eq "b" (.sInt 1)]]) :=
  ((c3_or_group_semantics [mkCol "a" .integer, mkCol "b" .integer] "a|b" "a|b" none
      (.sInt 1) [mkCol "a" .integer, mkCol "b" .integer]
      [.eq "a" (.sInt 1), .eq "b" (.sInt 1)]
      rfl rfl (by decide) (by decide) rfl rfl).2.2 (by decide)).1

/-- Claim C8: the compiled filter predicate is appended identically to the
data query and the count query; ordering follows the precedence explicit
`sort_by` > request sort > `fallback_sort` and is applied to the data query
only; the count query keeps its ORDER BY, offset and limit untouched. -/
theorem c8_count_query_frame (M : Model) (q cq : Query) (data : Option QueryData)
    (sb fb : List OrderExpr) (ar : Bool) (q' cq' : Query)
    (h : apply_filter_sort_range_for_query M q cq data sb fb ar = .ok (q', cq')) :
    (∃ fe, q'.wheres = q.wheres ++ fe ∧ cq'.wheres = cq.wheres ++ fe) ∧
    cq'.orderBy = cq.orderBy ∧ cq'.offset = cq.offset ∧ cq'.limit = cq.limit ∧
    (sb ≠ [] → q'.orderBy = q.orderBy ++ sb) ∧
    (sb = [] → ∀ sf so, (data.getD {}).sort = some (sf, so) →
      ∃ oe, get_sort_by_key_and_order_expression M sf so = some oe ∧
        q'.orderBy = q.orderBy ++ [oe]) ∧
    (sb = [] → (data.getD {}).sort = none → fb ≠ [] → q'.orderBy = q.orderBy ++ fb) ∧
    (sb = [] → (data.getD {}).sort = none → fb = [] → q'.orderBy = q.orderBy) := by
  rw [apply_filter_sort_range_eq] at h
  rcases hro : resolvedOrder M (data.getD {}).sort sb fb with e0 | os
  · rw [hro] at h
    exact absurd h (by simp)
  · rw [hro] at h
    simp only [Except.ok.injEq, Prod.mk.injEq] at h
    obtain ⟨h1, h2⟩ := h
    subst h1
    subst h2
    refine ⟨⟨appliedFilterExprs M (data.getD {}).filter,
        by rw [appliedRange_wheres], rfl⟩, rfl, ?_, ?_, ?_, ?_, ?_, ?_⟩
    · rfl
    · rfl
    · intro hsb
      rcases sb with _ | ⟨s0, sb1⟩
      · exact absurd rfl hsb
      · unfold resolvedOrder at hro
        simp only [List.isEmpty_cons, Bool.not_false, if_true, Except.ok.injEq] at hro
        rw [appliedRange_orderBy, hro]
    · intro hsb sf so hsort
      subst hsb
      unfold resolvedOrder at hro
      rw [hsort] at hro
      simp only [List.isEmpty_nil, Bool.not_true, Bool.false_eq_true, if_false] at hro
      rcases hoe : get_sort_by_key_and_order_expression M sf so with _ | oe
      · rw [hoe] at hro
        exact absurd hro (by simp)
      · rw [hoe] at hro
        simp only [Except.ok.injEq] at hro
        exact ⟨oe, rfl, by rw [appliedRange_orderBy, hro]⟩
    · intro hsb hsort hfb
      subst hsb
      rcases fb with _ | ⟨f0, fb1⟩
      · exact absurd rfl hfb
      · unfold resolvedOrder at hro
        rw [hsort] at hro
        simp only [List.isEmpty_nil, List.isEmpty_cons, Bool.not_true, Bool.not_false,
          Bool.false_eq_true, if_false, if_true, Except.ok.injEq] at hro
        rw [appliedRange_orderBy, hro]
    · intro hsb hsort hfb
      subst hsb
      subst hfb
      unfold resolvedOrder at hro
      rw [hsort] at hro
      simp only [List.isEmpty_nil, Bool.not_true, Bool.false_eq_true, if_false,
        Except.ok.injEq] at hro
      rw [appliedRange_orderBy, ← hro]
      simp

/-- Witness for C8 on a one-column model with a filter, a request sort, and a
range: the filter lands on both queries, the ordering and pagination on the
data query only. -/
theorem c8_count_query_frame_witness :
    ∃ fe, ({ wheres := [.and_ [.ilike "name" "%x%"]], orderBy := [.asc "name"],
             offset := some 0, limit := some 10 } : Query).wheres =
        ([] : List FilterExpr) ++ fe ∧
      ({ wheres := [.and_ [.ilike "name" "%x%"]] } : Query).wheres =
        ([] : List FilterExpr) ++ fe :=
  (c8_count_query_frame [mkCol "name" .string] {} {}
    (some { filter := some [("name", .scalar (.sStr "x"))],
            sort := some ("name", "ASC"), range := some (0, 9) })
    [] [] true
    { wheres := [.and_ [.ilike "name" "%x%"]], orderBy := [.asc "name"],
      offset := some 0, limit := some 10 }
    { wheres := [.and_ [.ilike "name" "%x%"]] } rfl).1

/-- Claim C9: compiling the same data (same filter dict cell) twice yields
structurally equal results, and compilation never mutates the caller's
filter dict — the engine's only dict mutation (`.pop("_query", None)`) hits
the fresh dict built by `exclude_keys_from_filter`, not the caller's. -/
theorem c9_idempotent_no_mutation (M : Model) (q cq : Query)
    (srt : Option (String × String)) (rng : Option (Int × Int)) (r : Nat)
    (sb fb : List OrderExpr) (ar : Bool) (s : Store) (h : r < s.cells.length) :
    (apply_filter_sort_range_for_query_st M q cq
        (some ⟨some r, srt, rng⟩) sb fb ar s).2.read r = s.read r ∧
    (apply_filter_sort_range_for_query_st M q cq (some ⟨some r, srt, rng⟩) sb fb ar
        ((apply_filter_sort_range_for_query_st M q cq
            (some ⟨some r, srt, rng⟩) sb fb ar s).2)).1 =
      (apply_filter_sort_range_for_query_st M q cq
        (some ⟨some r, srt, rng⟩) sb fb ar s).1 := by
  obtain ⟨h1, h2, h3⟩ := apply_filter_sort_range_st_spec M q cq srt rng r sb fb ar s h
  obtain ⟨h1', h2', h3'⟩ :=
    apply_filter_sort_range_st_spec M q cq srt rng r sb fb ar _ h3
  exact ⟨h2, by rw [h1', h1, h2]⟩

/-- Witness for C9 on a one-cell store holding a one-entry filter dict. -/
theorem c9_idempotent_no_mutation_witness :
    (0 : Nat) < (⟨[[("name", .scalar (.sStr "x"))]]⟩ : Store).cells.length ∧
    (apply_filter_sort_range_for_query_st [mkCol "name" .string] {} {}
        (some ⟨some 0, none, none⟩) [] [] true
        ⟨[[("name", .scalar (.sStr "x"))]]⟩).2.read 0 =
      (⟨[[("name", .scalar (.sStr "x"))]]⟩ : Store).read 0 :=
  ⟨by decide,
    (c9_idempotent_no_mutation [mkCol "name" .string] {} {} none none 0 [] [] true
      ⟨[[("name", .scalar (.sStr "x"))]]⟩ (by decide)).1⟩

/-- Amended C5: with a non-`None` `_query` term (an empty string counts) and
both loops nonempty, the result is the AND of the explicit predicates with
the OR of the global-search predicates; a field contributes to the
global-search OR iff it appears among the iterated keys, parses to a
nonempty field name that exists on the model, and its column type is not
`DateTime`, `Integer`, `SmallInteger`, `BigInteger`, or `Boolean` — `Date`
and `Time` columns are not excluded, and a non-text eligible column gets the
type-appropriate comparison predicate rather than a substring match. -/
theorem c5_amended_global_search (M : Model) (filters : Dict)
    (a b : FilterExpr) (as bs : List FilterExpr)
    (hff : fieldsFiltersOf M (filtersPrepared filters) = a :: as)
    (hgq : globalQueryOf filters ≠ pyNone)
    (hfq : queryFiltersOf M (filtersPrepared filters) (globalQueryOf filters) = b :: bs) :
    get_filter_expression M filters =
      some (.and_ [.and_ (a :: as), .or_ (b :: bs)]) ∧
    (∀ e, e ∈ queryFiltersOf M (filtersPrepared filters) (globalQueryOf filters) ↔
      ∃ k v fkey op c, (k, v) ∈ filtersPrepared filters ∧
        safe_unpack_filter k = (some fkey, op) ∧ fkey ≠ "" ∧
        getCol M fkey = some c ∧ isGlobalSearchSkipped (colTypeOf c) = false ∧
        e = filterExprSingle c (globalQueryOf filters) none) := by
  refine ⟨get_filter_expression_both M filters a b as bs hff hgq hfq, ?_⟩
  intro e
  unfold queryFiltersOf
  rw [List.mem_flatMap]
  constructor
  · rintro ⟨⟨k, v⟩, hkv, he⟩
    refine ⟨k, v, ?_⟩
    unfold globalFilterFor at he
    rcases hsu : safe_unpack_filter k with ⟨fk, op⟩
    rw [hsu] at he
    rcases fk with _ | fkey
    · cases he
    · rcases hemp : (fkey == "") with _ | _
      · simp only [hemp, Bool.false_eq_true, if_false] at he
        rcases hgc : getCol M fkey with _ | c
        · rw [hgc] at he
          cases he
        · rw [hgc] at he
          rcases his : isGlobalSearchSkipped (colTypeOf c) with _ | _
          · simp only [his, Bool.false_eq_true, if_false] at he
            have hee : e = filterExprSingle c (globalQueryOf filters) none := by
              simpa [append_filter_column_to] using he
            exact ⟨fkey, op, c, hkv, rfl, by simpa using hemp, hgc, his, hee⟩
          · simp only [his, if_true] at he
            cases he
      · simp only [hemp, if_true] at he
        cases he
  · rintro ⟨k, v, fkey, op, c, hkv, hsu, hne, hgc, his, rfl⟩
    refine ⟨(k, v), hkv, ?_⟩
    unfold globalFilterFor
    rw [hsu]
    have hemp : (fkey == "") = false := by simpa using hne
    simp [hemp, hgc, his, append_filter_column_to]

/-- Witness for amended C5: a `Date` column and an empty-string term still
produce a global-search predicate — an equality, not a substring match. -/
theorem c5_amended_global_search_witness :
    get_filter_expression [mkCol "d" .date]
        [("d", .scalar (.sStr "x")), ("_query", .scalar (.sStr ""))] =
      some (.and_ [.and_ [.eq "d" (.sStr "x")], .or_ [.eq "d" (.sStr "")]]) :=
  (c5_amended_global_search [mkCol "d" .date]
    [("d", .scalar (.sStr "x")), ("_query", .scalar (.sStr ""))]
    (.eq "d" (.sStr "x")) (.eq "d" (.sStr "")) [] []
    rfl (by decide) rfl).1

/-- Amended C10: an unparsable key (three or more `:`-segments) never
influences the result; a null-valued key emits no per-key predicate and,
when the map carries no non-`None` `_query` term (and dict keys are unique,
as in a real Python dict), is fully inert; a filter map consisting only of
null-valued or unparsable entries compiles to no expression at all, with no
error.  (When a non-`None` `_query` is present, a null-valued key's field
still feeds the global-search OR — see the counterexample.) -/
theorem c10_amended_inert_entries (M : Model) :
    (∀ filters : Dict,
      (∀ p ∈ filters, p.2 = pyNone ∨ 3 ≤ (pySplit p.1 ':').length) →
      get_filter_expression M filters = none) ∧
    (∀ (l1 l2 : Dict) (k : String) (v : Value),
      3 ≤ (pySplit k ':').length →
      get_filter_expression M (l1 ++ (k, v) :: l2) =
        get_filter_expression M (l1 ++ l2)) ∧
    (∀ (l1 l2 : Dict) (k : String),
      ((l1 ++ (k, pyNone) :: l2).map Prod.fst).Nodup →
      lookupVal (l1 ++ (k, pyNone) :: l2) "_query" = pyNone →
      get_filter_expression M (l1 ++ (k, pyNone) :: l2) =
        get_filter_expression M (l1 ++ l2)) := by
  refine ⟨?_, ?_, ?_⟩
  · -- all-inert map compiles to nothing
    intro filters hin
    apply get_filter_expression_none
    · apply flatMap_nil_of_all
      intro p hp
      rcases hsu : safe_unpack_filter p.1 with ⟨_ | fkey, op⟩
      · exact explicitFilterFor_unparsable M _ p.1 (by rw [hsu])
      · apply explicitFilterFor_null
        rcases hfind : List.find? (fun q => q.1 == p.1) (filtersPrepared filters)
          with _ | q
        · simp [lookupVal, hfind]
        · have hq1 : q.1 = p.1 := by simpa using List.find?_some hfind
          have hqf : q ∈ filters :=
            mem_of_mem_filtersPrepared (List.mem_of_find?_eq_some hfind)
          rcases hin q hqf with hnull | hlong
          · simp [lookupVal, hfind, hnull]
          · have hcon := safe_unpack_none_of_three q.1 hlong
            rw [hq1, hsu] at hcon
            cases hcon
    · unfold globalQueryOf
      rcases hfind : List.find? (fun q => q.1 == "_query")
          (exclude_keys_from_filter filters excludeFilterKeys) with _ | q
      · simp [lookupVal, hfind]
      · have hq1 : q.1 = "_query" := by simpa using List.find?_some hfind
        have hqf : q ∈ filters := by
          have := List.mem_of_find?_eq_some hfind
          unfold exclude_keys_from_filter at this
          exact (List.mem_filter.mp this).1
        rcases hin q hqf with hnull | hlong
        · simp [lookupVal, hfind, hnull]
        · have hcon := safe_unpack_none_of_three q.1 hlong
          rw [hq1] at hcon
          exact absurd hcon (by decide)
  · -- an unparsable entry never influences the result
    intro l1 l2 k v hk3
    have hsu : safe_unpack_filter k = (none, none) := safe_unpack_none_of_three k hk3
    have hkq : k ≠ "_query" := by
      intro he
      rw [he] at hsu
      exact absurd hsu (by decide)
    have hgq : globalQueryOf (l1 ++ (k, v) :: l2) = globalQueryOf (l1 ++ l2) := by
      unfold globalQueryOf
      rw [lookupVal_exclude _ _ _ (by decide), lookupVal_exclude _ _ _ (by decide)]
      exact lookupVal_middle_ne l1 l2 k "_query" v hkq
    have hcong : ∀ p ∈ filtersPrepared l1 ++ filtersPrepared l2,
        explicitFilterFor M (filtersPrepared l1 ++ (k, v) :: filtersPrepared l2) p.1 =
          explicitFilterFor M (filtersPrepared l1 ++ filtersPrepared l2) p.1 := by
      intro p _
      rcases hpu : (safe_unpack_filter p.1).1 with _ | fkey
      · rw [explicitFilterFor_unparsable M _ p.1 hpu,
          explicitFilterFor_unparsable M _ p.1 hpu]
      · apply explicitFilterFor_congr
        apply lookupVal_middle_ne
        intro he
        rw [← he, hsu] at hpu
        cases hpu
    have hff : fieldsFiltersOf M (filtersPrepared (l1 ++ (k, v) :: l2)) =
        fieldsFiltersOf M (filtersPrepared (l1 ++ l2)) := by
      rcases hkp : ((k != "_query") && !(excludeFilterKeys.contains k)) with _ | _
      · rw [filtersPrepared_middle_dropped l1 l2 k v hkp, filtersPrepared_append]
      · rw [filtersPrepared_middle_kept l1 l2 k v hkp, filtersPrepared_append]
        exact fieldsFiltersOf_middle_inert M _ _ k v
          (explicitFilterFor_unparsable M _ k (by rw [hsu])) hcong
    have hfq : ∀ gq, queryFiltersOf M (filtersPrepared (l1 ++ (k, v) :: l2)) gq =
        queryFiltersOf M (filtersPrepared (l1 ++ l2)) gq := by
      intro gq
      rcases hkp : ((k != "_query") && !(excludeFilterKeys.contains k)) with _ | _
      · rw [filtersPrepared_middle_dropped l1 l2 k v hkp, filtersPrepared_append]
      · rw [filtersPrepared_middle_kept l1 l2 k v hkp, filtersPrepared_append]
        exact queryFiltersOf_middle_inert M _ _ k v gq
          (globalFilterFor_unparsable M gq k (by rw [hsu]))
    exact get_filter_expression_ext M _ _ hgq hff (fun _ => by rw [hgq, hfq])
  · -- a null-valued entry is inert when no global term is present
    intro l1 l2 k hnd hq
    have hky : ∀ p ∈ l1 ++ l2, p.1 ≠ k := nodup_middle_fst l1 l2 k pyNone hnd
    have hgqA : globalQueryOf (l1 ++ (k, pyNone) :: l2) = pyNone := by
      unfold globalQueryOf
      rw [lookupVal_exclude _ _ _ (by decide)]
      exact hq
    have hgqB : globalQueryOf (l1 ++ l2) = pyNone := by
      unfold globalQueryOf
      rw [lookupVal_exclude _ _ _ (by decide)]
      by_cases hkq : k = "_query"
      · subst hkq
        exact lookupVal_not_mem _ _ hky
      · rw [← lookupVal_middle_ne l1 l2 k "_query" pyNone hkq]
        exact hq
    have hff : fieldsFiltersOf M (filtersPrepared (l1 ++ (k, pyNone) :: l2)) =
        fieldsFiltersOf M (filtersPrepared (l1 ++ l2)) := by
      rcases hkp : ((k != "_query") && !(excludeFilterKeys.contains k)) with _ | _
      · rw [filtersPrepared_middle_dropped l1 l2 k pyNone hkp, filtersPrepared_append]
      · rw [filtersPrepared_middle_kept l1 l2 k pyNone hkp, filtersPrepared_append]
        refine fieldsFiltersOf_middle_inert M _ _ k pyNone ?_ ?_
        · apply explicitFilterFor_null
          apply lookupVal_of_nodup _ k pyNone
          · rw [← filtersPrepared_middle_kept l1 l2 k pyNone hkp]
            exact filtersPrepared_nodup_fst _ hnd
          · simp
        · intro p hp
          apply explicitFilterFor_congr
          apply lookupVal_middle_ne
          have hp' : p ∈ l1 ++ l2 := by
            rcases List.mem_append.mp hp with h | h
            · exact List.mem_append_left _ (mem_of_mem_filtersPrepared h)
            · exact List.mem_append_right _ (mem_of_mem_filtersPrepared h)
          exact fun he => hky p hp' he.symm
    exact get_filter_expression_ext M _ _ (by rw [hgqA, hgqB]) hff
      (fun hcon => absurd hgqA hcon)

/-- Witness for amended C10: a map holding only a null-valued key, an
unparsable key, and a null `_query` compiles to `None`; removing the
unparsable entry changes nothing. -/
theorem c10_amended_inert_entries_witness :
    get_filter_expression [mkCol "name" .string]
        [("name", pyNone), ("a:b:c", .scalar (.sStr "x")), ("_query", pyNone)] = none ∧
    get_filter_expression [mkCol "name" .string]
        ([("name", pyNone)] ++ ("a:b:c", .scalar (.sStr "x")) :: [("_query", pyNone)]) =
      get_filter_expression [mkCol "name" .string]
        ([("name", pyNone)] ++ [("_query", pyNone)]) :=
  ⟨(c10_amended_inert_entries [mkCol "name" .string]).1
      [("name", pyNone), ("a:b:c", .scalar (.sStr "x")), ("_query", pyNone)]
      (by decide),
    (c10_amended_inert_entries [mkCol "name" .string]).2.1
      [("name", pyNone)] [("_query", pyNone)] "a:b:c" (.scalar (.sStr "x"))
      (by decide)⟩

end QueryEngine
